import Mathlib

/-!
# Verification of the KITTI calibration module (`calib.py`)

Shallow embedding of the calibration-file parser, the homogeneous-transform
primitive, the disparity filters and the `Calib` transform-composition engine,
together with proofs of the specified properties.

Machine reals are modelled by `ℚ` (exact arithmetic); `numpy` arrays by lists
of rows; Python exceptions by an explicit error type returned through
`Except`.  Division by zero yields the junk value `0` rather than an IEEE
infinity; no claim below depends on the distinction.
-/

/-- Python exceptions that the module can raise, by kind.  `keyError` carries
the missing dictionary key, `singular` stands for `numpy.linalg.LinAlgError`
raised by `np.linalg.inv` on a singular matrix. -/
inductive Err where
  | valueError
  | indexError
  | keyError (k : String)
  | attributeError
  | singular
  deriving DecidableEq

/-- Decidable equality of `Except` results, used to evaluate the embedding
at concrete inputs. -/
instance {ε α : Type} [DecidableEq ε] [DecidableEq α] : DecidableEq (Except ε α) := fun x y =>
  match x, y with
  | Except.ok a, Except.ok b =>
    if h : a = b then isTrue (by rw [h]) else isFalse (by simp [h])
  | Except.error a, Except.error b =>
    if h : a = b then isTrue (by rw [h]) else isFalse (by simp [h])
  | Except.ok _, Except.error _ => isFalse (by simp)
  | Except.error _, Except.ok _ => isFalse (by simp)

/-- A value stored in the calibration dictionary: either a parsed float
vector (`np.array` of floats) or the raw trimmed string. -/
inductive CalibValue where
  | num (xs : List ℚ)
  | str (s : String)
  deriving DecidableEq

/-- The calibration dictionary, as an insertion-ordered association list;
a later binding of the same key overwrites an earlier one (see `dictGet`). -/
abbrev CalibData := List (String × CalibValue)

/-- Lookup in the calibration dictionary: the *last* binding of a key wins,
matching Python `dict` assignment semantics. -/
def dictGet (d : CalibData) (k : String) : Option CalibValue :=
  (d.filter (fun e => decide (e.1 = k))).getLast?.map (fun e => e.2)

/-- The character class Python's `line.strip('\n')` removes: newlines only. -/
def isNL (c : Char) : Bool := c = '\n'

/-- `line.strip('\n')`: remove leading and trailing newline characters. -/
def stripNL (s : List Char) : List Char :=
  ((s.dropWhile isNL).reverse.dropWhile isNL).reverse

/-- The ASCII whitespace class of Python's `str.strip()` with no argument. -/
def isPySpace (c : Char) : Bool :=
  c = ' ' || c = '\t' || c = '\n' || c = '\r' || c = '\x0b' || c = '\x0c'

/-- `value.strip()`: remove surrounding whitespace. -/
def trimWS (s : List Char) : List Char :=
  ((s.dropWhile isPySpace).reverse.dropWhile isPySpace).reverse

/-- `line.split(':', 1)` when it succeeds: split at the *first* colon,
`none` when the line contains no colon (in which case the tuple unpacking
`key, value = line.split(':', 1)` raises `ValueError`). -/
def splitFirstColon : List Char → Option (List Char × List Char)
  | [] => none
  | c :: rest =>
    if c = ':' then some ([], rest)
    else (splitFirstColon rest).map (fun kv => (c :: kv.1, kv.2))

/-- `value.split(' ')`: split on every single space, keeping empty tokens
(so `"a  b"` yields `["a", "", "b"]` and `""` yields `[""]`). -/
def splitSpaces : List Char → List (List Char)
  | [] => [[]]
  | c :: cs =>
    if c = ' ' then [] :: splitSpaces cs
    else
      match splitSpaces cs with
      | t :: ts => (c :: t) :: ts
      | [] => [[c]]

/-- Membership in `float_chars = set("0123456789.e+- ")`. -/
def isFloatChar (c : Char) : Bool :=
  c.isDigit || c = '.' || c = 'e' || c = '+' || c = '-' || c = ' '

/-- Numeric value of a digit string (most significant first). -/
def digitsVal (ds : List Char) : ℕ :=
  ds.foldl (fun a c => 10 * a + (c.toNat - 48)) 0

/-- Python's `float(token)` restricted to the characters that can reach it
here (`0-9 . e + -`): optional sign, then a mantissa that is either
`digits [ '.' digits* ]` or `'.' digits+`, then an optional exponent
`'e' [sign] digits+`; anything else (in particular the empty string, a lone
`'e'`, `'.'`, or trailing garbage) raises `ValueError`, modelled as `none`.
The numeric value is exact over `ℚ` rather than rounded to binary64; no
claim depends on rounding. -/
def parseFloatTok (cs : List Char) : Option ℚ :=
  let sgnRest : ℚ × List Char :=
    match cs with
    | '+' :: r => (1, r)
    | '-' :: r => (-1, r)
    | _ => (1, cs)
  let sgn := sgnRest.1
  let ip := sgnRest.2.takeWhile Char.isDigit
  let afterIp := sgnRest.2.dropWhile Char.isDigit
  let frPart : Option (List Char) × List Char :=
    match afterIp with
    | '.' :: r => (some (r.takeWhile Char.isDigit), r.dropWhile Char.isDigit)
    | _ => (none, afterIp)
  let fr := frPart.1
  let afterFr := frPart.2
  let mantissaOk : Bool :=
    !ip.isEmpty ||
      (match fr with
       | some f => !f.isEmpty
       | none => false)
  let expVal : Option ℤ :=
    match afterFr with
    | [] => some 0
    | 'e' :: r =>
      let esRest : ℤ × List Char :=
        match r with
        | '+' :: rr => (1, rr)
        | '-' :: rr => (-1, rr)
        | _ => (1, r)
      let ed := esRest.2.takeWhile Char.isDigit
      let rest := esRest.2.dropWhile Char.isDigit
      if ed.isEmpty ∨ rest ≠ [] then none
      else some (esRest.1 * (digitsVal ed : ℤ))
    | _ => none
  if mantissaOk then
    match expVal with
    | some e =>
      some (sgn * ((digitsVal ip : ℚ) +
        (digitsVal (fr.getD []) : ℚ) / 10 ^ (fr.getD []).length) * 10 ^ e)
    | none => none
  else none

/-- `list(map(float, tokens))`: `some` of the parsed list when every token
parses, `none` as soon as one raises. -/
def mapFloats : List (List Char) → Option (List ℚ)
  | [] => some []
  | t :: ts =>
    match parseFloatTok t, mapFloats ts with
    | some x, some xs => some (x :: xs)
    | _, _ => none

/-- The value part of one calibration line (already trimmed): if every
character is in `float_chars`, try to parse a space-separated float vector,
silently keeping the raw string on failure; otherwise keep the raw string. -/
def parseValue (v : List Char) : CalibValue :=
  if v.all isFloatChar then
    match mapFloats (splitSpaces v) with
    | some xs => CalibValue.num xs
    | none => CalibValue.str (String.mk v)
  else CalibValue.str (String.mk v)

/-- One iteration of the `read_calib_file` loop: `none` for a skipped blank
line, `some (key, value)` for a parsed binding, error when the line has no
colon. -/
def processLine (line : String) : Except Err (Option (String × CalibValue)) :=
  let l := stripNL line.toList
  if l = [] then Except.ok none
  else
    match splitFirstColon l with
    | none => Except.error Err.valueError
    | some kv => Except.ok (some (String.mk kv.1, parseValue (trimWS kv.2)))

/-- `read_calib_file`, applied to the list of lines that `f.readlines()`
returns (each line still carrying its trailing newline).  File I/O itself is
outside the embedding. -/
def read_calib_file (lines : List String) : Except Err CalibData :=
  lines.foldlM
    (fun d line => do
      match ← processLine line with
      | none => pure d
      | some kv => pure (d ++ [kv]))
    []

/-- Pointwise sum of two coefficient vectors, keeping the tail of the longer
one (at its call sites below both vectors have equal length, or one is
empty). -/
def addVecPad : List ℚ → List ℚ → List ℚ
  | [], v => v
  | u, [] => u
  | a :: u, b :: v => (a + b) :: addVecPad u v

/-- Row-vector times matrix, as `numpy` computes `r @ B`:
`Σ_k r_k · B_k` where `B_k` is the k-th row of `B`.  Summation stops with
the shorter operand; every call site has `r.length = B.length`. -/
def vecMatList : List ℚ → List (List ℚ) → List ℚ
  | a :: as, row :: rows => addVecPad (row.map (fun x => a * x)) (vecMatList as rows)
  | _, _ => []

/-- `np.dot(A, B)` on rectangular list matrices: each row of `A` is
multiplied through `B`. -/
def matMulL (A B : List (List ℚ)) : List (List ℚ) :=
  A.map (fun r => vecMatList r B)

/-- The shape of a well-formed two-dimensional `numpy` array built from a
list of rows: `none` when the rows are ragged (newer `numpy` raises) or the
outer list is empty (shape `(0,)` makes the `n, D = points.shape` unpacking
fail). -/
def shapeOf (A : List (List ℚ)) : Option (ℕ × ℕ) :=
  match A with
  | [] => none
  | r :: rs => if rs.all (fun x => decide (x.length = r.length))
               then some (A.length, r.length) else none

/-- Normalization step of `homogeneous_transform` on one output row:
divide every entry except the last by the last entry
(`new_points[:, :-1] / new_points[:, [-1]]`) and, when `keep_last` is set,
re-append the *raw* last entry (`np.hstack([..., new_points[:, [-1]]])`). -/
def normRow (r : List ℚ) (keep_last : Bool) : List ℚ :=
  r.dropLast.map (fun x => x / r.getLast?.getD 0) ++
    (if keep_last then [r.getLast?.getD 0] else [])

/-- Shared tail of `homogeneous_transform` after the dimension check:
multiply and normalize.  `numpy` raises `IndexError` for the column
selection `[:, [-1]]` when the transform has zero columns. -/
def htCore (pts T : List (List ℚ)) (N : ℕ) (keep_last : Bool) :
    Except Err (List (List ℚ)) :=
  if N = 0 then Except.error Err.indexError
  else Except.ok ((matMulL pts T).map (fun r => normRow r keep_last))

/-- `homogeneous_transform(points, transform, keep_last)`: promote `(n, M-1)`
points with a unit homogeneous column, reject any other column count that is
not `M`, right-multiply, and normalize by the last coordinate.  The dimension
comparisons are over `ℤ`, as Python's are. -/
def homogeneous_transform (points transform : List (List ℚ))
    (keep_last : Bool := false) : Except Err (List (List ℚ)) :=
  match shapeOf points, shapeOf transform with
  | some (_, D), some (M, N) =>
    if (D : ℤ) = (M : ℤ) - 1 then
      htCore (points.map (fun r => r ++ [1])) transform N keep_last
    else if D = M then htCore points transform N keep_last
    else Except.error Err.valueError
  | _, _ => Except.error Err.valueError

/-- `filter_disps`' boolean mask on one `(x, y, d)` row for a given
`(height, width)` shape and disparity bound: the width bound uses
`shape[1]`, the height bound `shape[0]`. -/
def dispMask (shape : ℕ × ℕ) (max_disp : ℚ) (r : ℚ × ℚ × ℚ) : Bool :=
  decide (0 ≤ r.1) && decide (r.1 ≤ (shape.2 : ℚ) - 1) &&
  decide (0 ≤ r.2.1) && decide (r.2.1 ≤ (shape.1 : ℚ) - 1) &&
  decide (0 ≤ r.2.2) && decide (r.2.2 ≤ max_disp)

/-- `numpy` boolean-mask indexing `xyd[mask]`: keep the rows whose mask
entry is `true`. -/
def maskIndex (xyd : List (ℚ × ℚ × ℚ)) (mask : List Bool) : List (ℚ × ℚ × ℚ) :=
  (xyd.zip mask).filterMap (fun p => if p.2 then some p.1 else none)

/-- Module-level `filter_disps(xyd, shape, max_disp=255)`: build the mask
from the bounds and index with it.  (`return_mask=True` additionally returns
`xyd.map (dispMask shape max_disp)` itself; the claims only concern the
filtered rows.) -/
def filter_disps (xyd : List (ℚ × ℚ × ℚ)) (shape : ℕ × ℕ)
    (max_disp : ℚ := 255) : List (ℚ × ℚ × ℚ) :=
  maskIndex xyd (xyd.map (dispMask shape max_disp))

/-- Module-level constant `image_shape = 375, 1242`. -/
def image_shape : ℕ × ℕ := (375, 1242)

/-- A 4×4 matrix as the list-of-rows array fed to `homogeneous_transform`. -/
def matToList (T : Matrix (Fin 4) (Fin 4) ℚ) : List (List ℚ) :=
  [[T 0 0, T 0 1, T 0 2, T 0 3],
   [T 1 0, T 1 1, T 1 2, T 1 3],
   [T 2 0, T 2 1, T 2 2, T 2 3],
   [T 3 0, T 3 1, T 3 2, T 3 3]]

/-- `np.linalg.inv` on a 4×4 rational matrix, computably:
`det⁻¹ • adjugate`.  Over `ℚ` this coincides with Mathlib's noncomputable
`Inv.inv` for every matrix (see `inv4_eq_inv`). -/
def inv4 (T : Matrix (Fin 4) (Fin 4) ℚ) : Matrix (Fin 4) (Fin 4) ℚ :=
  T.det⁻¹ • T.adjugate

/-- The `Calib` object.  `__init__` stores `calib_path` (irrelevant here)
and `data`; it never stores the `color` argument, so the `color` attribute
is *absent* after construction — modelled by `Option Bool`, where `none`
means "attribute not set, reading it raises `AttributeError`". -/
structure Calib where
  data : CalibData
  color : Option Bool
  deriving DecidableEq

/-- `Calib(calib_path, color=False)`: parse the file and store the data.
The `color` parameter is accepted and dropped, exactly as in the source. -/
def Calib.init (lines : List String) (_color : Bool := false) : Except Err Calib :=
  (read_calib_file lines).map (fun d => { data := d, color := none })

/-- `self.data[key]`: `KeyError` when absent. -/
def getField (d : CalibData) (k : String) : Except Err CalibValue :=
  match dictGet d k with
  | none => Except.error (Err.keyError k)
  | some v => Except.ok v

/-- `value.reshape(3, 4)`: `AttributeError` on a string value (strings have
no `reshape`), `ValueError` unless the vector has exactly 12 entries. -/
def reshape34 (v : CalibValue) : Except Err (Matrix (Fin 3) (Fin 4) ℚ) :=
  match v with
  | CalibValue.str _ => Except.error Err.attributeError
  | CalibValue.num xs =>
    if xs.length = 12
    then Except.ok (Matrix.of (fun i j : Fin 4 => xs.getD (4 * i.1 + j.1) 0)
      ∘ Fin.castLE (by omega))
    else Except.error Err.valueError

/-- `value.reshape(3, 3)`: as `reshape34` but 9 entries. -/
def reshape33 (v : CalibValue) : Except Err (Matrix (Fin 3) (Fin 3) ℚ) :=
  match v with
  | CalibValue.str _ => Except.error Err.attributeError
  | CalibValue.num xs =>
    if xs.length = 9
    then Except.ok (Matrix.of (fun i j : Fin 3 => xs.getD (3 * i.1 + j.1) 0))
    else Except.error Err.valueError

/-- Reading `self.color`: `AttributeError` when the attribute was never
set (which `__init__` never does). -/
def Calib.getColor (c : Calib) : Except Err Bool :=
  match c.color with
  | none => Except.error Err.attributeError
  | some b => Except.ok b

/-- `get_rect2disp`: choose the camera pair by `self.color`, reshape the two
projection matrices, stack `[P0, P1, P0 - Q0, P2]` (rows of `P_rect0` are
`P0 P1 P2`, of `P_rect1` are `Q0 Q1 Q2`) and return the transpose. -/
def get_rect2disp (c : Calib) : Except Err (Matrix (Fin 4) (Fin 4) ℚ) := do
  let color ← c.getColor
  let v0 ← getField c.data (if color then "P2" else "P0")
  let p ← reshape34 v0
  let v1 ← getField c.data (if color then "P3" else "P1")
  let q ← reshape34 v1
  let T : Matrix (Fin 4) (Fin 4) ℚ := Matrix.of ![p 0, p 1, p 0 - q 0, p 2]
  pure T.transpose

/-- `get_disp2rect = np.linalg.inv(get_rect2disp())`; `np.linalg.inv`
raises `LinAlgError` on a singular matrix. -/
def get_disp2rect (c : Calib) : Except Err (Matrix (Fin 4) (Fin 4) ℚ) := do
  let T ← get_rect2disp c
  if T.det = 0 then Except.error Err.singular else pure (inv4 T)

/-- `get_velo2rect`: `RT_velo2cam` is the 4×4 identity whose three leftmost
columns are replaced by `Tr_velo_to_cam.reshape(3,4).T`; `R_rect00` is the
identity with its top-left 3×3 block replaced by `R0_rect.reshape(3,3)`;
the result is `(R_rect00 @ RT_velo2cam).T`. -/
def get_velo2rect (c : Calib) : Except Err (Matrix (Fin 4) (Fin 4) ℚ) := do
  let vtc ← getField c.data "Tr_velo_to_cam"
  let trM ← reshape34 vtc
  let RT_velo2cam : Matrix (Fin 4) (Fin 4) ℚ :=
    Matrix.of (fun i j : Fin 4 =>
      if hj : j.1 < 3 then trM ⟨j.1, hj⟩ i else if i = j then 1 else 0)
  let r0 ← getField c.data "R0_rect"
  let r0M ← reshape33 r0
  let R_rect00 : Matrix (Fin 4) (Fin 4) ℚ :=
    Matrix.of (fun i j : Fin 4 =>
      if hi : i.1 < 3 then
        (if hj : j.1 < 3 then r0M ⟨i.1, hi⟩ ⟨j.1, hj⟩ else 0)
      else if i = j then 1 else 0)
  pure (R_rect00 * RT_velo2cam).transpose

/-- `get_rect2imu` is *called* by the `rect2imu` wrapper but no such method
or derivation exists anywhere in the class, so Python attribute lookup on
`self.get_rect2imu` raises `AttributeError` before anything is computed. -/
def get_rect2imu (_c : Calib) : Except Err (Matrix (Fin 4) (Fin 4) ℚ) :=
  Except.error Err.attributeError

/-- Point wrapper `rect2disp(points)`. -/
def Calib.rect2disp (c : Calib) (points : List (List ℚ)) :
    Except Err (List (List ℚ)) := do
  let T ← get_rect2disp c
  homogeneous_transform points (matToList T)

/-- Point wrapper `disp2rect(xyd)`. -/
def Calib.disp2rect (c : Calib) (xyd : List (List ℚ)) :
    Except Err (List (List ℚ)) := do
  let T ← get_disp2rect c
  homogeneous_transform xyd (matToList T)

/-- Point wrapper `rect2imu(points)`: forwards to the nonexistent
`get_rect2imu`. -/
def Calib.rect2imu (c : Calib) (points : List (List ℚ)) :
    Except Err (List (List ℚ)) := do
  let T ← get_rect2imu c
  homogeneous_transform points (matToList T)

/-- Alias for the module-level `filter_disps`, so that the method below can
delegate to it unambiguously. -/
def filter_disps_module : List (ℚ × ℚ × ℚ) → ℕ × ℕ → ℚ → List (ℚ × ℚ × ℚ) :=
  fun xyd shape max_disp => filter_disps xyd shape max_disp

/-- Method `Calib.filter_disps(xyd, max_disp=255)`: delegates to the
module-level `filter_disps` with the module-level constant `image_shape`,
ignoring everything loaded from the calibration file. -/
def Calib.filter_disps (_c : Calib) (xyd : List (ℚ × ℚ × ℚ))
    (max_disp : ℚ := 255) : List (ℚ × ℚ × ℚ) :=
  filter_disps_module xyd image_shape max_disp

lemma maskIndex_map_eq_filter (p : ℚ × ℚ × ℚ → Bool) (xyd : List (ℚ × ℚ × ℚ)) :
    maskIndex xyd (xyd.map p) = xyd.filter p := by
  induction xyd with
  | nil => rfl
  | cons x xs ih =>
    by_cases h : p x <;>
      simp [maskIndex, List.filterMap_cons, h, List.filter_cons, ih] <;>
      simpa [maskIndex] using ih

lemma dispMask_eq_decide (h w : ℕ) (md : ℚ) (r : ℚ × ℚ × ℚ) :
    dispMask (h, w) md r =
      decide (0 ≤ r.1 ∧ r.1 ≤ (w : ℚ) - 1 ∧ 0 ≤ r.2.1 ∧ r.2.1 ≤ (h : ℚ) - 1 ∧
        0 ≤ r.2.2 ∧ r.2.2 ≤ md) := by
  simp [dispMask, Bool.and_assoc]

/-- C7: `filter_disps xyd (h, w) max_disp` keeps exactly the rows with
`0 ≤ x ≤ w-1`, `0 ≤ y ≤ h-1`, `0 ≤ d ≤ max_disp` (width bound from
`shape[1]`, height bound from `shape[0]`), preserving order; with
`max_disp = 255` a row `(w, 0, 10)` is excluded, `(0, 0, 256)` is excluded,
and `(0, 0, 0)` is included (for a nonempty image shape). -/
theorem claim_C7 :
    (∀ (xyd : List (ℚ × ℚ × ℚ)) (h w : ℕ) (md : ℚ),
      filter_disps xyd (h, w) md =
        xyd.filter (fun r =>
          decide (0 ≤ r.1 ∧ r.1 ≤ (w : ℚ) - 1 ∧ 0 ≤ r.2.1 ∧ r.2.1 ≤ (h : ℚ) - 1 ∧
            0 ≤ r.2.2 ∧ r.2.2 ≤ md))) ∧
    (∀ h w : ℕ, filter_disps [((w : ℚ), 0, 10)] (h, w) 255 = []) ∧
    (∀ h w : ℕ, filter_disps [(0, 0, 256)] (h, w) 255 = []) ∧
    (∀ h w : ℕ, 1 ≤ h → 1 ≤ w →
      filter_disps [(0, 0, 0)] (h, w) 255 = [(0, 0, 0)]) := by
  have key : ∀ (xyd : List (ℚ × ℚ × ℚ)) (h w : ℕ) (md : ℚ),
      filter_disps xyd (h, w) md =
        xyd.filter (fun r =>
          decide (0 ≤ r.1 ∧ r.1 ≤ (w : ℚ) - 1 ∧ 0 ≤ r.2.1 ∧ r.2.1 ≤ (h : ℚ) - 1 ∧
            0 ≤ r.2.2 ∧ r.2.2 ≤ md)) := by
    intro xyd h w md
    rw [filter_disps, maskIndex_map_eq_filter]
    exact List.filter_congr (fun r _ => dispMask_eq_decide h w md r)
  refine ⟨key, ?_, ?_, ?_⟩
  · intro h w
    rw [key]
    have hx : ¬ ((w : ℚ) ≤ (w : ℚ) - 1) := by linarith
    simp [List.filter_cons, hx]
  · intro h w
    rw [key]
    have hd : ¬ ((256 : ℚ) ≤ 255) := by norm_num
    simp [List.filter_cons, hd]
  · intro h w hh hw
    rw [key]
    have hx : (0 : ℚ) ≤ (w : ℚ) - 1 := by
      have : (1 : ℚ) ≤ (w : ℚ) := by exact_mod_cast hw
      linarith
    have hy : (0 : ℚ) ≤ (h : ℚ) - 1 := by
      have : (1 : ℚ) ≤ (h : ℚ) := by exact_mod_cast hh
      linarith
    simp [List.filter_cons, hx, hy]

/-- C7 witness: the three concrete memberships at the KITTI image shape
`(375, 1242)`. -/
theorem claim_C7_witness :
    filter_disps [((1242 : ℚ), 0, 10)] (375, 1242) 255 = [] ∧
    filter_disps [(0, 0, 256)] (375, 1242) 255 = [] ∧
    filter_disps [(0, 0, 0)] (375, 1242) 255 = [(0, 0, 0)] :=
  ⟨claim_C7.2.1 375 1242, claim_C7.2.2.1 375 1242,
   claim_C7.2.2.2 375 1242 (by decide) (by decide)⟩

/-- C10: the `Calib.filter_disps` method ignores the instance entirely and
always bounds points by the module constant `image_shape = (375, 1242)`:
it keeps exactly the rows with `0 ≤ x ≤ 1241`, `0 ≤ y ≤ 374`,
`0 ≤ d ≤ max_disp`, whatever calibration file was loaded. -/
theorem claim_C10 :
    ∀ (c c' : Calib) (xyd : List (ℚ × ℚ × ℚ)) (md : ℚ),
      Calib.filter_disps c xyd md = Calib.filter_disps c' xyd md ∧
      Calib.filter_disps c xyd md =
        xyd.filter (fun r =>
          decide (0 ≤ r.1 ∧ r.1 ≤ 1241 ∧ 0 ≤ r.2.1 ∧ r.2.1 ≤ 374 ∧
            0 ≤ r.2.2 ∧ r.2.2 ≤ md)) := by
  intro c c' xyd md
  constructor
  · rfl
  · show filter_disps xyd image_shape md = _
    rw [image_shape, filter_disps, maskIndex_map_eq_filter]
    refine List.filter_congr (fun r _ => ?_)
    rw [dispMask_eq_decide]
    have h1 : ((1242 : ℕ) : ℚ) - 1 = 1241 := by norm_num
    have h2 : ((375 : ℕ) : ℚ) - 1 = 374 := by norm_num
    rw [h1, h2]

/-- C4: the `rect2imu` point wrapper always fails with `AttributeError`
(the `get_rect2imu` derivation it calls does not exist anywhere in the
class) and produces no partial result. -/
theorem claim_C4 :
    ∀ (c : Calib) (points : List (List ℚ)),
      Calib.rect2imu c points = Except.error Err.attributeError := by
  intro c points
  rfl

lemma splitFirstColon_eq_none (l : List Char) :
    splitFirstColon l = none ↔ ':' ∉ l := by
  induction l with
  | nil => simp [splitFirstColon]
  | cons c rest ih =>
    by_cases h : c = ':'
    · simp [splitFirstColon, h]
    · simp [splitFirstColon, h, ih, Ne.symm h]

lemma splitFirstColon_append (k v : List Char) (hk : ':' ∉ k) :
    splitFirstColon (k ++ ':' :: v) = some (k, v) := by
  induction k with
  | nil => simp [splitFirstColon]
  | cons c rest ih =>
    have hc : c ≠ ':' := fun h => hk (by simp [h])
    have hrest : ':' ∉ rest := fun h => hk (List.mem_cons_of_mem _ h)
    simp [splitFirstColon, hc, ih hrest]

lemma mapFloats_of_mem_nil (ts : List (List Char)) (h : [] ∈ ts) :
    mapFloats ts = none := by
  induction ts with
  | nil => cases h
  | cons t rest ih =>
    rcases List.mem_cons.mp h with h1 | h2
    · have : parseFloatTok t = none := by rw [← h1]; rfl
      simp [mapFloats, this]
    · rw [mapFloats, ih h2]
      cases parseFloatTok t <;> rfl

lemma mem_nil_tail_splitSpaces (s e : List Char) :
    [] ∈ (splitSpaces (s ++ ' ' :: ' ' :: e)).tail := by
  induction s with
  | nil => simp [splitSpaces]
  | cons c rest ih =>
    show [] ∈ (splitSpaces (c :: (rest ++ ' ' :: ' ' :: e))).tail
    by_cases h : c = ' '
    · rw [splitSpaces, if_pos h]
      rcases hs : splitSpaces (rest ++ ' ' :: ' ' :: e) with _ | ⟨t, ts⟩
      · rw [hs] at ih; cases ih
      · rw [hs] at ih
        exact List.mem_of_mem_tail ih
    · rw [splitSpaces, if_neg h]
      rcases hs : splitSpaces (rest ++ ' ' :: ' ' :: e) with _ | ⟨t, ts⟩
      · rw [hs] at ih; cases ih
      · rw [hs] at ih; exact ih

/-- C5: when every character of the trimmed value lies in
`{0-9, '.', 'e', '+', '-', ' '}`, `read_calib_file` attempts a
space-separated float parse and, on failure, silently keeps the trimmed
string; concretely, `"P0: 1.0 2.0 3.0\n"` parses to the vector `[1, 2, 3]`
and `"S: foo bar\n"` falls back to the string `"foo bar"`. -/
theorem claim_C5 :
    (∀ v : List Char, v.all isFloatChar = true →
      mapFloats (splitSpaces v) = none →
      parseValue v = CalibValue.str (String.mk v)) ∧
    read_calib_file ["P0: 1.0 2.0 3.0\n"] =
      Except.ok [("P0", CalibValue.num [1, 2, 3])] ∧
    read_calib_file ["S: foo bar\n"] =
      Except.ok [("S", CalibValue.str "foo bar")] := by
  refine ⟨?_, ?_, ?_⟩
  · intro v hall hnone
    simp [parseValue, hall, hnone]
  · with_unfolding_all rfl
  · decide

/-- C5 witness: the silent fallback fires on the value `"e"`, whose single
character is in the float character set but which `float` rejects. -/
theorem claim_C5_witness :
    "e".toList.all isFloatChar = true ∧
    mapFloats (splitSpaces "e".toList) = none ∧
    parseValue "e".toList = CalibValue.str (String.mk "e".toList) :=
  ⟨by decide, by decide, claim_C5.1 "e".toList (by decide) (by decide)⟩

/-- C6: `read_calib_file` skips every line that is empty after stripping
newlines, fails with `ValueError` on a remaining line with no `':'`, and
otherwise splits at the *first* `':'` — so a value containing `':'` is
accepted. -/
theorem claim_C6 :
    (∀ line : String, stripNL line.toList = [] → processLine line = Except.ok none) ∧
    (∀ line : String, stripNL line.toList ≠ [] → ':' ∉ stripNL line.toList →
      processLine line = Except.error Err.valueError) ∧
    (∀ (line : String) (k v : List Char), stripNL line.toList = k ++ ':' :: v →
      ':' ∉ k →
      processLine line = Except.ok (some (String.mk k, parseValue (trimWS v)))) := by
  refine ⟨?_, ?_, ?_⟩
  · intro line h
    have h' : stripNL line.data = [] := h
    simp [processLine, h']
  · intro line h hc
    have h' : stripNL line.data ≠ [] := h
    have hn : splitFirstColon (stripNL line.data) = none :=
      (splitFirstColon_eq_none _).mpr hc
    simp [processLine, h', hn]
  · intro line k v heq hk
    have h1 : stripNL line.data ≠ [] := by
      rw [show stripNL line.data = k ++ ':' :: v from heq]
      exact List.append_ne_nil_of_right_ne_nil _ (List.cons_ne_nil _ _)
    have h2 : splitFirstColon (stripNL line.data) = some (k, v) := by
      rw [show stripNL line.data = k ++ ':' :: v from heq]
      exact splitFirstColon_append k v hk
    simp [processLine, h1, h2]

/-- C6 witness: a blank line is skipped, `"abc\n"` (no colon) is a
`ValueError`, and in `"K: a:b\n"` the first colon is the split point, so
the colon-bearing value is accepted. -/
theorem claim_C6_witness :
    processLine "\n" = Except.ok none ∧
    processLine "abc\n" = Except.error Err.valueError ∧
    processLine "K: a:b\n" =
      Except.ok (some (String.mk "K".toList, parseValue (trimWS " a:b".toList))) :=
  ⟨claim_C6.1 "\n" (by decide),
   claim_C6.2.1 "abc\n" (by decide) (by decide),
   claim_C6.2.2 "K: a:b\n" "K".toList " a:b".toList (by decide) (by decide)⟩

/-- C9: a value whose characters all lie in the float character set but
which contains two consecutive spaces splits into a token list containing
the empty token, which `float` rejects, so the whole value is silently kept
as the raw trimmed string; concretely `"K: 1.0  2.0\n"` stores the string
`"1.0  2.0"`, not a numeric vector. -/
theorem claim_C9 :
    (∀ v : List Char, v.all isFloatChar = true →
      (∃ s e, v = s ++ ' ' :: ' ' :: e) →
      parseValue v = CalibValue.str (String.mk v)) ∧
    read_calib_file ["K: 1.0  2.0\n"] =
      Except.ok [("K", CalibValue.str "1.0  2.0")] := by
  constructor
  · rintro v hall ⟨s, e, rfl⟩
    have hmem : [] ∈ splitSpaces (s ++ ' ' :: ' ' :: e) :=
      List.mem_of_mem_tail (mem_nil_tail_splitSpaces s e)
    have hnone : mapFloats (splitSpaces (s ++ ' ' :: ' ' :: e)) = none :=
      mapFloats_of_mem_nil _ hmem
    simp [parseValue, hall, hnone]
  · decide

/-- C9 witness: the double-space value `"1.0  2.0"` is all float
characters yet is kept as a string. -/
theorem claim_C9_witness :
    "1.0  2.0".toList.all isFloatChar = true ∧
    parseValue "1.0  2.0".toList = CalibValue.str (String.mk "1.0  2.0".toList) :=
  ⟨by decide,
   claim_C9.1 "1.0  2.0".toList (by decide)
     ⟨"1.0".toList, "2.0".toList, by decide⟩⟩

/-- C8: construction is lazy about calibration fields — whenever the file
parses, `Calib.init` succeeds no matter which fields are present, and the
`get_velo2rect` accessor raises the missing-field `KeyError` only when it
is itself invoked on data lacking `Tr_velo_to_cam`. -/
theorem claim_C8 :
    ∀ (lines : List String) (d : CalibData) (b : Bool),
      read_calib_file lines = Except.ok d →
      Calib.init lines b = Except.ok { data := d, color := none } ∧
      (dictGet d "Tr_velo_to_cam" = none →
        get_velo2rect { data := d, color := none } =
          Except.error (Err.keyError "Tr_velo_to_cam")) := by
  intro lines d b h
  constructor
  · simp [Calib.init, h, Except.map]
  · intro hd
    have hf : getField d "Tr_velo_to_cam" =
        Except.error (Err.keyError "Tr_velo_to_cam") := by
      simp [getField, hd]
    simp only [get_velo2rect, hf]
    rfl

/-- C8 witness: a file with only an opaque field loads fine, and the
missing-field error surfaces only at the `get_velo2rect` call. -/
theorem claim_C8_witness :
    Calib.init ["S: foo\n"] false =
      Except.ok { data := [("S", CalibValue.str "foo")], color := none } ∧
    get_velo2rect { data := [("S", CalibValue.str "foo")], color := none } =
      Except.error (Err.keyError "Tr_velo_to_cam") := by
  have H := claim_C8 ["S: foo\n"] [("S", CalibValue.str "foo")] false (by decide)
  exact ⟨H.1, H.2 (by decide)⟩

/-- A calibration file carrying all four projection matrices, used to
evidence the `color` attribute bug. -/
def c3CalibLines : List String :=
  ["P0: 1 0 0 0 0 1 0 0 0 0 1 0\n",
   "P1: 0 0 0 -1 0 1 0 0 0 0 1 0\n",
   "P2: 1 0 0 0 0 1 0 0 0 0 1 0\n",
   "P3: 0 0 0 -2 0 1 0 0 0 0 1 0\n"]

/-- C3 (bug evidence): for either value of the `color` constructor
argument, `get_rect2disp` on a freshly constructed `Calib` raises
`AttributeError`, because `__init__` accepts `color` but never stores it,
so `self.color` does not exist when `get_rect2disp` reads it.  The
camera-pair selection the claim (and the constructor signature) describe is
therefore unreachable on the code as written. -/
theorem claim_C3_bug :
    (Calib.init c3CalibLines false).bind get_rect2disp =
      Except.error Err.attributeError ∧
    (Calib.init c3CalibLines true).bind get_rect2disp =
      Except.error Err.attributeError := by
  constructor <;> with_unfolding_all rfl

lemma getD_addVecPad : ∀ (u v : List ℚ) (j : ℕ),
    (addVecPad u v).getD j 0 = u.getD j 0 + v.getD j 0 := by
  intro u
  induction u with
  | nil => intro v j; simp [addVecPad]
  | cons a u ih =>
    intro v j
    cases v with
    | nil => simp [addVecPad]
    | cons b v =>
      cases j with
      | zero => simp [addVecPad]
      | succ j =>
        rw [addVecPad]
        simp only [List.getD_cons_succ]
        exact ih v j

lemma getD_map_mul (a : ℚ) : ∀ (l : List ℚ) (j : ℕ),
    (l.map (fun x => a * x)).getD j 0 = a * l.getD j 0 := by
  intro l
  induction l with
  | nil => intro j; simp
  | cons x t ih =>
    intro j
    cases j with
    | zero => simp
    | succ j =>
      simp only [List.map_cons, List.getD_cons_succ]
      exact ih j

lemma getD_vecMatList : ∀ (r : List ℚ) (B : List (List ℚ)) (j : ℕ),
    (vecMatList r B).getD j 0 =
      ∑ kk ∈ Finset.range (min r.length B.length),
        r.getD kk 0 * (B.getD kk []).getD j 0 := by
  intro r
  induction r with
  | nil => intro B j; simp [vecMatList]
  | cons a r ih =>
    intro B j
    cases B with
    | nil => simp [vecMatList]
    | cons row rows =>
      rw [vecMatList, getD_addVecPad, getD_map_mul, ih]
      simp only [List.length_cons, Nat.succ_min_succ]
      rw [Finset.sum_range_succ']
      simp [List.getD_cons_succ, List.getD_cons_zero]
      ring

lemma length_addVecPad : ∀ u v : List ℚ,
    (addVecPad u v).length = max u.length v.length := by
  intro u
  induction u with
  | nil => intro v; simp [addVecPad]
  | cons a u ih =>
    intro v
    cases v with
    | nil => simp [addVecPad]
    | cons b v => simp [addVecPad, ih, Nat.succ_max_succ]

lemma length_vecMatList : ∀ (r : List ℚ) (B : List (List ℚ)) (N : ℕ),
    (∀ row ∈ B, row.length = N) → r ≠ [] → B ≠ [] → r.length = B.length →
    (vecMatList r B).length = N := by
  intro r
  induction r with
  | nil => intro B N _ hr _ _; exact absurd rfl hr
  | cons a r ih =>
    intro B N hB _ hB' hlen
    cases B with
    | nil => exact absurd rfl hB'
    | cons row rows =>
      rw [vecMatList, length_addVecPad]
      have hrow : row.length = N := hB row (by simp)
      rcases r with _ | ⟨a2, r2⟩
      · have hrows : rows = [] := by
          have := hlen
          simp only [List.length_cons, List.length_nil] at this
          exact List.length_eq_zero.mp (by omega)
        subst hrows
        simp [vecMatList, hrow]
      · have hrows : rows ≠ [] := by
          intro hcontra
          subst hcontra
          simp at hlen
        have hrec := ih rows N (fun row hm => hB row (List.mem_cons_of_mem _ hm))
          (by simp) hrows (by simpa using hlen)
        simp [hrow, hrec]

lemma map_getD_range (f : ℚ → ℚ) : ∀ l : List ℚ,
    l.map f = (List.range l.length).map (fun j => f (l.getD j 0)) := by
  intro l
  induction l with
  | nil => simp
  | cons a t ih =>
    rw [List.length_cons, List.range_succ_eq_map, List.map_cons, List.map_cons,
      List.map_map]
    simp only [List.getD_cons_zero]
    refine congrArg (fun x => f a :: x) ?_
    rw [ih]
    refine List.map_congr_left (fun j _ => ?_)
    simp [Function.comp, List.getD_cons_succ]

lemma getD_dropLast : ∀ (l : List ℚ) (j : ℕ), j < l.length - 1 →
    l.dropLast.getD j 0 = l.getD j 0 := by
  intro l
  induction l with
  | nil => intro j h; simp at h
  | cons a t ih =>
    intro j h
    cases t with
    | nil => simp at h
    | cons b t2 =>
      cases j with
      | zero => simp
      | succ j =>
        have h' : j < (b :: t2).length - 1 := by
          simp only [List.length_cons] at h ⊢
          omega
        simp only [List.dropLast_cons₂, List.getD_cons_succ]
        exact ih j h'

lemma getLastD_eq_getD : ∀ l : List ℚ,
    l.getLast?.getD 0 = l.getD (l.length - 1) 0 := by
  intro l
  induction l with
  | nil => simp
  | cons a t ih =>
    cases t with
    | nil => simp
    | cons b t2 =>
      rw [List.getLast?_cons_cons, ih]
      simp [List.length_cons]

lemma shapeOf_some {A : List (List ℚ)} {n D : ℕ} (h : shapeOf A = some (n, D)) :
    A ≠ [] ∧ n = A.length ∧ ∀ r ∈ A, r.length = D := by
  cases A with
  | nil => simp [shapeOf] at h
  | cons r rs =>
    rw [shapeOf] at h
    by_cases hall : rs.all (fun x => decide (x.length = r.length))
    · rw [if_pos hall] at h
      simp only [Option.some.injEq, Prod.mk.injEq] at h
      refine ⟨List.cons_ne_nil _ _, h.1.symm, ?_⟩
      intro x hx
      rcases List.mem_cons.mp hx with rfl | hx2
      · exact h.2
      · have := List.all_eq_true.mp hall x hx2
        simp only [decide_eq_true_eq] at this
        rw [this, h.2]
    · rw [if_neg hall] at h; cases h

/-- The promotion step as the claim states it: append a unit homogeneous
coordinate exactly when the points are one column short of the transform. -/
def promoteRow (D M : ℕ) (r : List ℚ) : List ℚ :=
  if (D : ℤ) = (M : ℤ) - 1 then r ++ [1] else r

lemma normRow_vecMatList (r' : List ℚ) (T : List (List ℚ)) (N : ℕ) (k : Bool)
    (hT : ∀ row ∈ T, row.length = N) (hr : r' ≠ []) (hT' : T ≠ [])
    (hlen : r'.length = T.length) :
    normRow (vecMatList r' T) k =
      (List.range (N - 1)).map (fun j =>
        (∑ kk ∈ Finset.range T.length, r'.getD kk 0 * (T.getD kk []).getD j 0) /
        (∑ kk ∈ Finset.range T.length, r'.getD kk 0 * (T.getD kk []).getD (N - 1) 0)) ++
      (if k then [∑ kk ∈ Finset.range T.length,
          r'.getD kk 0 * (T.getD kk []).getD (N - 1) 0] else []) := by
  have hv : (vecMatList r' T).length = N := length_vecMatList r' T N hT hr hT' hlen
  have hmin : min r'.length T.length = T.length := by rw [hlen, Nat.min_self]
  have hgd : ∀ j : ℕ, (vecMatList r' T).getD j 0 =
      ∑ kk ∈ Finset.range T.length, r'.getD kk 0 * (T.getD kk []).getD j 0 := by
    intro j; rw [getD_vecMatList, hmin]
  have hlast : (vecMatList r' T).getLast?.getD 0 =
      ∑ kk ∈ Finset.range T.length, r'.getD kk 0 * (T.getD kk []).getD (N - 1) 0 := by
    rw [getLastD_eq_getD, hv, hgd]
  rw [normRow, hlast, map_getD_range, List.length_dropLast, hv]
  refine congrArg (fun x => x ++ _) ?_
  refine List.map_congr_left (fun j hj => ?_)
  have hj' : j < N - 1 := List.mem_range.mp hj
  rw [getD_dropLast _ _ (by rw [hv]; exact hj'), hgd]

theorem claim_C1 (p T : List (List ℚ)) (n D M N : ℕ) (k : Bool)
    (hp : shapeOf p = some (n, D)) (hT : shapeOf T = some (M, N)) :
    ((D : ℤ) ≠ (M : ℤ) - 1 → D ≠ M →
      homogeneous_transform p T k = Except.error Err.valueError) ∧
    (((D : ℤ) = (M : ℤ) - 1 ∨ D = M) → 1 ≤ N →
      homogeneous_transform p T k =
        Except.ok (p.map (fun r =>
          (List.range (N - 1)).map (fun j =>
            (∑ kk ∈ Finset.range M,
              (promoteRow D M r).getD kk 0 * (T.getD kk []).getD j 0) /
            (∑ kk ∈ Finset.range M,
              (promoteRow D M r).getD kk 0 * (T.getD kk []).getD (N - 1) 0)) ++
          (if k then
            [∑ kk ∈ Finset.range M,
              (promoteRow D M r).getD kk 0 * (T.getD kk []).getD (N - 1) 0]
           else []))) ∧
      ∀ out, homogeneous_transform p T k = Except.ok out →
        out.length = n ∧ ∀ row ∈ out, row.length = if k then N else N - 1) := by
  obtain ⟨hpne, hn, hrows⟩ := shapeOf_some hp
  obtain ⟨hTne, hMT, hTrows⟩ := shapeOf_some hT
  refine ⟨?_, ?_⟩
  · intro h1 h2
    simp only [homogeneous_transform, hp, hT, if_neg h1, if_neg h2]
  · intro hD hN
    have main : homogeneous_transform p T k =
        Except.ok (p.map (fun r =>
          (List.range (N - 1)).map (fun j =>
            (∑ kk ∈ Finset.range M,
              (promoteRow D M r).getD kk 0 * (T.getD kk []).getD j 0) /
            (∑ kk ∈ Finset.range M,
              (promoteRow D M r).getD kk 0 * (T.getD kk []).getD (N - 1) 0)) ++
          (if k then
            [∑ kk ∈ Finset.range M,
              (promoteRow D M r).getD kk 0 * (T.getD kk []).getD (N - 1) 0]
           else []))) := by
      by_cases hDM : (D : ℤ) = (M : ℤ) - 1
      · have hM1 : M = D + 1 := by omega
        simp only [homogeneous_transform, hp, hT, if_pos hDM, htCore,
          if_neg (show ¬ N = 0 by omega), matMulL, List.map_map]
        refine congrArg Except.ok (List.map_congr_left (fun r hr => ?_))
        show normRow (vecMatList (r ++ [1]) T) k = _
        have hDM' : (D : ℤ) = (T.length : ℤ) - 1 := by
          rw [← hMT]; exact hDM
        simp only [promoteRow, hMT, if_pos hDM']
        refine normRow_vecMatList (r ++ [1]) T N k hTrows (by simp) hTne ?_
        rw [List.length_append, hrows r hr]
        have h2 := hMT
        simp only [List.length_cons, List.length_nil]
        omega
      · have hDM2 : D = M := hD.resolve_left hDM
        simp only [homogeneous_transform, hp, hT, if_neg hDM, if_pos hDM2, htCore,
          if_neg (show ¬ N = 0 by omega), matMulL, List.map_map]
        refine congrArg Except.ok (List.map_congr_left (fun r hr => ?_))
        show normRow (vecMatList r T) k = _
        have hDM'' : ¬ (D : ℤ) = (T.length : ℤ) - 1 := by
          rw [← hMT]; exact hDM
        simp only [promoteRow, hMT, if_neg hDM'']
        have hrne : r ≠ [] := by
          refine List.ne_nil_of_length_pos ?_
          rw [hrows r hr, hDM2, hMT]
          exact List.length_pos.mpr hTne
        exact normRow_vecMatList r T N k hTrows hrne hTne
          (by rw [hrows r hr, hDM2, hMT])
    refine ⟨main, ?_⟩
    intro out hout
    rw [main] at hout
    injection hout with hout'
    subst hout'
    constructor
    · rw [List.length_map, hn]
    · intro row hrow
      obtain ⟨r, hr, rfl⟩ := List.mem_map.mp hrow
      cases k with
      | false => simp
      | true => simp; omega

theorem claim_C1_witness :
    homogeneous_transform [[(5 : ℚ), 7]] [[1, 0, 0], [0, 1, 0], [0, 0, 2]] false =
      Except.ok [[5 / 2, 7 / 2]] ∧
    homogeneous_transform [[(5 : ℚ), 7]] [[1, 0], [0, 1], [0, 0], [0, 0]] false =
      Except.error Err.valueError := by
  have H1 := claim_C1 [[(5 : ℚ), 7]] [[1, 0, 0], [0, 1, 0], [0, 0, 2]] 1 2 3 3 false
    (by decide) (by decide)
  have H2 := claim_C1 [[(5 : ℚ), 7]] [[1, 0], [0, 1], [0, 0], [0, 0]] 1 2 4 2 false
    (by decide) (by decide)
  constructor
  · refine ((H1.2 (Or.inl (by norm_num)) (by norm_num)).1).trans ?_
    with_unfolding_all rfl
  · exact H2.1 (by decide) (by decide)

theorem claim_C1_counterexample :
    homogeneous_transform [[(2 : ℚ)]] [[1, 0], [0, 2]] true = Except.ok [[1, 2]] ∧
    homogeneous_transform [[(2 : ℚ)]] [[1, 0], [0, 2]] true ≠ Except.ok [[1, 1]] := by
  have h : homogeneous_transform [[(2 : ℚ)]] [[1, 0], [0, 2]] true =
      Except.ok [[1, 2]] := by
    with_unfolding_all rfl
  refine ⟨h, ?_⟩
  rw [h]
  intro hcontra
  injection hcontra with h2
  norm_num at h2

lemma inv4_eq_inv (T : Matrix (Fin 4) (Fin 4) ℚ) : inv4 T = T⁻¹ := by
  rw [inv4, Matrix.inv_def, Ring.inverse_eq_inv]

lemma ht_row3 (a b d : ℚ) (T : Matrix (Fin 4) (Fin 4) ℚ) :
    homogeneous_transform [[a, b, d]] (matToList T) false =
      Except.ok [[Matrix.vecMul ![a, b, d, 1] T 0 / Matrix.vecMul ![a, b, d, 1] T 3,
                  Matrix.vecMul ![a, b, d, 1] T 1 / Matrix.vecMul ![a, b, d, 1] T 3,
                  Matrix.vecMul ![a, b, d, 1] T 2 / Matrix.vecMul ![a, b, d, 1] T 3]] := by
  simp [homogeneous_transform, shapeOf, matToList, htCore, matMulL, vecMatList,
    addVecPad, normRow, Matrix.vecMul, Matrix.dotProduct, Fin.sum_univ_four]
  ring_nf
  norm_num

theorem claim_C2 (c : Calib) (T : Matrix (Fin 4) (Fin 4) ℚ)
    (hT : get_rect2disp c = Except.ok T) :
    (T.det = 0 → get_disp2rect c = Except.error Err.singular) ∧
    (T.det ≠ 0 →
      get_disp2rect c = Except.ok T⁻¹ ∧
      ∀ a b d : ℚ, Matrix.vecMul ![a, b, d, 1] T 3 ≠ 0 →
        (Calib.rect2disp c [[a, b, d]]).bind (Calib.disp2rect c) =
          Except.ok [[a, b, d]]) := by
  have hd1 : get_disp2rect c =
      (if T.det = 0 then Except.error Err.singular else pure (inv4 T)) := by
    have hunf : get_disp2rect c = (get_rect2disp c).bind
        (fun T0 => if T0.det = 0 then Except.error Err.singular
                   else pure (inv4 T0)) := rfl
    rw [hunf, hT]
    rfl
  constructor
  · intro hdet
    rw [hd1, if_pos hdet]
  · intro hdet
    have hinv : get_disp2rect c = Except.ok T⁻¹ := by
      rw [hd1, if_neg hdet, inv4_eq_inv]
      rfl
    refine ⟨hinv, ?_⟩
    intro a b d hw3
    have h1 : Calib.rect2disp c [[a, b, d]] =
        Except.ok [[Matrix.vecMul ![a, b, d, 1] T 0 / Matrix.vecMul ![a, b, d, 1] T 3,
                    Matrix.vecMul ![a, b, d, 1] T 1 / Matrix.vecMul ![a, b, d, 1] T 3,
                    Matrix.vecMul ![a, b, d, 1] T 2 / Matrix.vecMul ![a, b, d, 1] T 3]] := by
      have hunf : Calib.rect2disp c [[a, b, d]] = (get_rect2disp c).bind
          (fun T0 => homogeneous_transform [[a, b, d]] (matToList T0)) := rfl
      rw [hunf, hT]
      exact ht_row3 a b d T
    have hu : (![Matrix.vecMul ![a, b, d, 1] T 0 / Matrix.vecMul ![a, b, d, 1] T 3,
                 Matrix.vecMul ![a, b, d, 1] T 1 / Matrix.vecMul ![a, b, d, 1] T 3,
                 Matrix.vecMul ![a, b, d, 1] T 2 / Matrix.vecMul ![a, b, d, 1] T 3,
                 1] : Fin 4 → ℚ) =
        (Matrix.vecMul ![a, b, d, 1] T 3)⁻¹ • Matrix.vecMul ![a, b, d, 1] T := by
      funext i
      fin_cases i <;>
        simp [Pi.smul_apply, smul_eq_mul, div_eq_inv_mul, inv_mul_cancel₀ hw3]
    have hz : Matrix.vecMul
        ![Matrix.vecMul ![a, b, d, 1] T 0 / Matrix.vecMul ![a, b, d, 1] T 3,
          Matrix.vecMul ![a, b, d, 1] T 1 / Matrix.vecMul ![a, b, d, 1] T 3,
          Matrix.vecMul ![a, b, d, 1] T 2 / Matrix.vecMul ![a, b, d, 1] T 3,
          1] T⁻¹ =
        (Matrix.vecMul ![a, b, d, 1] T 3)⁻¹ • (![a, b, d, 1] : Fin 4 → ℚ) := by
      rw [hu, Matrix.vecMul_smul, Matrix.vecMul_vecMul,
        Matrix.mul_nonsing_inv T (isUnit_iff_ne_zero.mpr hdet), Matrix.vecMul_one]
    have hinv3 : (Matrix.vecMul ![a, b, d, 1] T 3)⁻¹ ≠ 0 := inv_ne_zero hw3
    have h2 : Calib.disp2rect c
        [[Matrix.vecMul ![a, b, d, 1] T 0 / Matrix.vecMul ![a, b, d, 1] T 3,
          Matrix.vecMul ![a, b, d, 1] T 1 / Matrix.vecMul ![a, b, d, 1] T 3,
          Matrix.vecMul ![a, b, d, 1] T 2 / Matrix.vecMul ![a, b, d, 1] T 3]] =
        Except.ok [[a, b, d]] := by
      have hunf : Calib.disp2rect c
          [[Matrix.vecMul ![a, b, d, 1] T 0 / Matrix.vecMul ![a, b, d, 1] T 3,
            Matrix.vecMul ![a, b, d, 1] T 1 / Matrix.vecMul ![a, b, d, 1] T 3,
            Matrix.vecMul ![a, b, d, 1] T 2 / Matrix.vecMul ![a, b, d, 1] T 3]] =
          (get_disp2rect c).bind
            (fun T0 => homogeneous_transform
              [[Matrix.vecMul ![a, b, d, 1] T 0 / Matrix.vecMul ![a, b, d, 1] T 3,
                Matrix.vecMul ![a, b, d, 1] T 1 / Matrix.vecMul ![a, b, d, 1] T 3,
                Matrix.vecMul ![a, b, d, 1] T 2 / Matrix.vecMul ![a, b, d, 1] T 3]]
              (matToList T0)) := rfl
      rw [hunf, hinv]
      have := ht_row3
        (Matrix.vecMul ![a, b, d, 1] T 0 / Matrix.vecMul ![a, b, d, 1] T 3)
        (Matrix.vecMul ![a, b, d, 1] T 1 / Matrix.vecMul ![a, b, d, 1] T 3)
        (Matrix.vecMul ![a, b, d, 1] T 2 / Matrix.vecMul ![a, b, d, 1] T 3)
        T⁻¹
      rw [show ((Except.ok T⁻¹ : Except Err (Matrix (Fin 4) (Fin 4) ℚ)).bind
        (fun T0 => homogeneous_transform
          [[Matrix.vecMul ![a, b, d, 1] T 0 / Matrix.vecMul ![a, b, d, 1] T 3,
            Matrix.vecMul ![a, b, d, 1] T 1 / Matrix.vecMul ![a, b, d, 1] T 3,
            Matrix.vecMul ![a, b, d, 1] T 2 / Matrix.vecMul ![a, b, d, 1] T 3]]
          (matToList T0))) = homogeneous_transform
          [[Matrix.vecMul ![a, b, d, 1] T 0 / Matrix.vecMul ![a, b, d, 1] T 3,
            Matrix.vecMul ![a, b, d, 1] T 1 / Matrix.vecMul ![a, b, d, 1] T 3,
            Matrix.vecMul ![a, b, d, 1] T 2 / Matrix.vecMul ![a, b, d, 1] T 3]]
          (matToList T⁻¹) from rfl]
      rw [this, hz]
      have e0 : ((Matrix.vecMul ![a, b, d, 1] T 3)⁻¹ • (![a, b, d, 1] : Fin 4 → ℚ)) 0 =
          (Matrix.vecMul ![a, b, d, 1] T 3)⁻¹ * a := by simp
      have e1 : ((Matrix.vecMul ![a, b, d, 1] T 3)⁻¹ • (![a, b, d, 1] : Fin 4 → ℚ)) 1 =
          (Matrix.vecMul ![a, b, d, 1] T 3)⁻¹ * b := by simp
      have e2 : ((Matrix.vecMul ![a, b, d, 1] T 3)⁻¹ • (![a, b, d, 1] : Fin 4 → ℚ)) 2 =
          (Matrix.vecMul ![a, b, d, 1] T 3)⁻¹ * d := by simp
      have e3 : ((Matrix.vecMul ![a, b, d, 1] T 3)⁻¹ • (![a, b, d, 1] : Fin 4 → ℚ)) 3 =
          (Matrix.vecMul ![a, b, d, 1] T 3)⁻¹ * 1 := by simp
      rw [e0, e1, e2, e3, mul_one,
        mul_div_cancel_left₀ a hinv3, mul_div_cancel_left₀ b hinv3,
        mul_div_cancel_left₀ d hinv3]
    rw [h1]
    exact h2

/-- A concrete `Calib` whose `color` attribute has been set (as a Python
caller could do with `c.color = False`), with identity-like projection
pairs, used as the C2 witness. -/
def c2Calib : Calib :=
  { data := [("P0", CalibValue.num [1, 0, 0, 0, 0, 1, 0, 0, 0, 0, 1, 0]),
             ("P1", CalibValue.num [0, 0, 0, -1, 0, 1, 0, 0, 0, 0, 1, 0])],
    color := some false }

/-- The matrix `get_rect2disp` computes for `c2Calib`, defined by that very
computation so that `get_rect2disp c2Calib = Except.ok c2T` holds by
reduction. -/
def c2T : Matrix (Fin 4) (Fin 4) ℚ :=
  match get_rect2disp c2Calib with
  | Except.ok T => T
  | Except.error _ => 1

theorem claim_C2_witness :
    get_disp2rect c2Calib = Except.ok c2T⁻¹ ∧
    (Calib.rect2disp c2Calib [[2, 3, 5]]).bind (Calib.disp2rect c2Calib) =
      Except.ok [[2, 3, 5]] := by
  have hT : get_rect2disp c2Calib = Except.ok c2T := by with_unfolding_all rfl
  have hmat : c2T =
      Matrix.of ![![1, 0, 1, 0], ![0, 1, 0, 0], ![0, 0, 0, 1], ![0, 0, 1, 0]] := by
    funext i j
    fin_cases i <;> fin_cases j <;> with_unfolding_all rfl
  have hdet : c2T.det ≠ 0 := by
    rw [hmat]
    norm_num [Matrix.det_succ_row_zero, Fin.sum_univ_succ]
  have H := claim_C2 c2Calib c2T hT
  have hw3 : Matrix.vecMul ![(2 : ℚ), 3, 5, 1] c2T 3 ≠ 0 := by
    rw [show Matrix.vecMul ![(2 : ℚ), 3, 5, 1] c2T 3 = 5 from by
      with_unfolding_all rfl]
    norm_num
  exact ⟨(H.2 hdet).1, (H.2 hdet).2 2 3 5 hw3⟩
